import Mathlib

/-!
Verification development for the OpenTPT firmware core.

This file gives a shallow embedding of the firmware's pulse-train engine
(`tpt-scpi.c`), of the PMBus host driver (`pmbus_host.c` / `pmbus_ll.c`)
and of the PMBus Linear11 numeric codec, and proves properties of the
embedded code.

Modelling conventions:
* C `double` values are modelled as exact rationals (`ℚ`).  The numeric
  claims proved here all have tolerances that are many orders of
  magnitude wider than double rounding error, so the exact-rational
  model is adequate for them.
* `size_t` / `uint32_t` arithmetic on the 32-bit Cortex-M33 target is
  modelled on `Nat` with an explicit `% 2 ^ 32` where the C code can
  wrap.
* The fixed-capacity C array `pulse_periods[TPT_MAXIMUM_NUMBER_PULSES]`
  together with its fill counter `current_number_pulses` is modelled as
  a `List`: the list length plays the role of the counter.  The C code
  never bounds-checks the counter against the capacity, and neither
  does the model; the capacity violation is thereby observable as a
  list longer than `TPT_MAXIMUM_NUMBER_PULSES`.
* Hardware effects of a pulse run (GPIO writes and busy-wait delays)
  are modelled as an explicit trace of output segments, each with the
  asserted output state and a lower bound on its hold time in
  nanoseconds (`delay_ns` waits at least the requested time).
-/

namespace OpenTPT

/-- Result type of SCPI command handlers (`scpi_result_t`):
`SCPI_RES_OK` / `SCPI_RES_ERR`. -/
inductive ScpiResult where
  | ok
  | err
deriving DecidableEq, Repr

/-- `#define TPT_MAXIMUM_NUMBER_PULSES 256` (tpt-scpi.h). -/
def TPT_MAXIMUM_NUMBER_PULSES : Nat := 256

/-- `#define TPT_DEADTIME_NS 200U` (tpt-scpi.c). -/
def TPT_DEADTIME_NS : Nat := 200

/-- Modulus of `size_t` / `uint32_t` arithmetic on the 32-bit target. -/
def SIZE_T_MOD : Nat := 2 ^ 32

/-- `double minimum_period = 5e-7;` (tpt-scpi.c, line 260). -/
def minimum_period : ℚ := 5 / 10 ^ 7

/-- `double maximum_period = 0.05;` (tpt-scpi.c, line 261). -/
def maximum_period : ℚ := 5 / 10 ^ 2

/-- C `round` (round half away from zero), on the exact-rational model
of `double`. -/
def cround (x : ℚ) : Int := if 0 ≤ x then ⌊x + 1 / 2⌋ else ⌈x - 1 / 2⌉

/-- Mutable state of the pulse-train engine (globals of tpt-scpi.c):
`pulse_periods` + `current_number_pulses` (modelled as one list, the
length being the counter), `run_trains` and `running`.  The stored
entries are the quantized interval counts held in the `uint64_t` array;
a stored count `n` stands for a pulse of `n * 500` ns. -/
structure TptState where
  pulse_periods : List Nat
  run_trains : Nat
  running : Bool
deriving DecidableEq, Repr

/-- Initial values of the globals: `current_number_pulses = 0`,
`run_trains = 0`, `running = false`. -/
def initialState : TptState :=
  { pulse_periods := [], run_trains := 0, running := false }

/-- `TPT_AddPulse` (tpt-scpi.c, lines 351-361).  The `param` argument is
the outcome of `SCPI_ParamDouble`: `none` when the mandatory period
parameter is missing or malformed.  On a parse failure the handler
returns `SCPI_RES_ERR` before touching any state; otherwise it stores
`round(period / minimum_period)` into the array (converted to the
`uint64_t` element type; the conversion is exact for the non-negative
rounded values, and for a negative rounded value — undefined behaviour
in C — the model picks `Int.toNat`) and increments the counter, with no
bounds or range check. -/
def TPT_AddPulse (param : Option ℚ) (s : TptState) : ScpiResult × TptState :=
  match param with
  | none => (.err, s)
  | some period =>
      (.ok, { s with pulse_periods :=
          s.pulse_periods ++ [(cround (period / minimum_period)).toNat] })

/-- `TPT_ClearPulses` (tpt-scpi.c, lines 363-366): zeroes the counter. -/
def TPT_ClearPulses (s : TptState) : ScpiResult × TptState :=
  (.ok, { s with pulse_periods := [] })

/-- `TPT_ReadPulses` (tpt-scpi.c, lines 368-377): returns every stored
count converted back to seconds (`pulse_periods[i] * minimum_period`),
in insertion order. -/
def TPT_ReadPulses (s : TptState) : List ℚ :=
  s.pulse_periods.map (fun n : Nat => (n : ℚ) * minimum_period)

/-- `TPT_GetCountPulses` (tpt-scpi.c, lines 434-437): reports
`run_trains`. -/
def TPT_GetCountPulses (s : TptState) : Nat := s.run_trains

/-- `TPT_CoreOpcQ` (tpt-scpi.c, lines 439-446): writes `0` when
`running` is set and `1` otherwise. -/
def TPT_CoreOpcQ (s : TptState) : Int := if s.running then 0 else 1

/-- `SCPI_Reset` (tpt-scpi.c, lines 334-343): `*RST` zeroes the pulse
counter and the run counter, clears `running` and forces the outputs
safe. -/
def SCPI_Reset (_s : TptState) : TptState :=
  { pulse_periods := [], run_trains := 0, running := false }

/-- Observable state of the two GPIO outputs: both off, positive pulse
pin high, or negative pulse pin high. -/
inductive OutputState where
  | off
  | positive
  | negative
deriving DecidableEq, Repr

/-- One segment of the output trace of a run: the asserted output state
and a lower bound (ns) on how long it is held before the next change. -/
structure TraceSeg where
  out : OutputState
  duration_ns : Nat
deriving DecidableEq, Repr

/-- Trace of the inner pulse loop of `TPT_RunPulses` (tpt-scpi.c, lines
414-424) started with toggle state `positive_on`.  Each iteration
computes `pulse_width_ns = count * 500`, toggles `positive_on`, calls
`set_complementary_outputs_with_deadtime` — which first drives both
outputs low (`reset_pins`), busy-waits `TPT_DEADTIME_NS`, and only then
raises the new polarity (lines 323-332) — and then holds the polarity
for `pulse_width_ns - TPT_DEADTIME_NS` when that is positive (truncated
subtraction matches the C guard `pulse_width_ns > TPT_DEADTIME_NS`). -/
def pulseTrace : List Nat → Bool → List TraceSeg
  | [], _ => []
  | count :: rest, positive_on =>
      ⟨.off, TPT_DEADTIME_NS⟩ ::
      ⟨if !positive_on then .positive else .negative,
        count * 500 - TPT_DEADTIME_NS⟩ ::
      pulseTrace rest (!positive_on)

/-- Trace of one repetition of the outer loop of `TPT_RunPulses`:
`reset_pins()` at the top of the body (off, for an unspecified time,
modelled with lower bound 0), the pulse loop started with
`positive_on = false`, then `reset_pins()` at the end of the body. -/
def repTrace (pulses : List Nat) : List TraceSeg :=
  ⟨.off, 0⟩ :: pulseTrace pulses false ++ [⟨.off, 0⟩]

/-- Trace of `n` executed repetitions of the outer loop. -/
def runTrace (pulses : List Nat) : Nat → List TraceSeg
  | 0 => []
  | n + 1 => repTrace pulses ++ runTrace pulses n

/-- `TPT_RunPulses` (tpt-scpi.c, lines 401-432).  `param` is the outcome
of `SCPI_ParamUInt32` (`none` on a missing/malformed repetition count):
on a parse failure the handler returns `SCPI_RES_ERR` before touching
any state or pin.  Otherwise it resets the pins, computes
`number_repetitions += run_trains` in `size_t` arithmetic (which wraps
mod `2^32` on the target) and runs the loop
`for (; run_trains < number_repetitions; run_trains++)`, so `run_trains`
rises to the wrapped target when that is larger and the number of
executed repetitions is the truncated difference.  `running` is set for
the duration of the call and cleared before returning.  The third
component is the GPIO output trace of the call, starting with the
initial `reset_pins()`. -/
def TPT_RunPulses (param : Option Nat) (s : TptState) :
    ScpiResult × TptState × List TraceSeg :=
  match param with
  | none => (.err, s, [])
  | some number_repetitions =>
      let target := (number_repetitions + s.run_trains) % SIZE_T_MOD
      (.ok,
       { s with
          run_trains := if s.run_trains < target then target else s.run_trains,
          running := false },
       ⟨.off, 0⟩ :: runTrace s.pulse_periods (target - s.run_trains))

/-- Dispatcher commands that mutate the pulse-train engine, with their
already-parsed parameters (`none` = parameter parse failure). -/
inductive Command where
  | addPulse (param : Option ℚ)
  | clearPulses
  | runPulses (param : Option Nat)
  | reset

/-- State transition of one dispatched command. -/
def execCommand (c : Command) (s : TptState) : TptState :=
  match c with
  | .addPulse p => (TPT_AddPulse p s).2
  | .clearPulses => (TPT_ClearPulses s).2
  | .runPulses p => (TPT_RunPulses p s).2.1
  | .reset => SCPI_Reset s

/-- State after a sequence of dispatched commands (the dispatcher
serves one command at a time). -/
def execCommands : List Command → TptState → TptState
  | [], s => s
  | c :: cs, s => execCommands cs (execCommand c s)

/-- Dead-time relation between two consecutive trace segments: whenever
the later segment asserts a polarity (is not both-off), the segment
immediately before it must have had both outputs off for at least the
fixed dead-time. -/
def DtR (a b : TraceSeg) : Prop :=
  b.out ≠ OutputState.off → a.out = OutputState.off ∧ TPT_DEADTIME_NS ≤ a.duration_ns

/-- Dead-time discipline of a whole trace: the trace starts with both
outputs off, and every polarity assertion is immediately preceded by a
both-off segment of at least the fixed dead-time. -/
def DeadtimeOK (t : List TraceSeg) : Prop :=
  (∀ x ∈ t.head?, x.out = OutputState.off) ∧ t.Chain' DtR

/-- C truncation toward zero of a `double` (the effect of a cast to an
integer type), on the exact-rational model. -/
def ctrunc (x : ℚ) : Int := if 0 ≤ x then ⌊x⌋ else ⌈x⌉

/-- Reduction of an integer into the value range of C `int16_t`
(two's-complement wrap; the conversion from `double` is only applied to
in-range values by the theorems below, where this is the identity). -/
def toInt16 (x : Int) : Int := (x + 2 ^ 15) % 2 ^ 16 - 2 ^ 15

/-- Mantissa clamping of `Double_ToLinear11` (pmbus_host.c, lines
783-785): `if (mantissa > 1023) mantissa = 1023; if (mantissa < -1024)
mantissa = -1024;`. -/
def clamp11 (m : Int) : Int :=
  if 1023 < m then 1023 else if m < -1024 then -1024 else m

/-- `Double_ToLinear11` (pmbus_host.c, lines 776-791; the identical
static copy lives in pmbus_ll.c, lines 110-125).  The mantissa is the
value truncated by the C cast `(int16_t)(value / pow(2.0, exp))`,
clamped to the signed 11-bit range; the result packs
`mantissa & 0x07FF` in bits 0-10 and `(exp & 0x1F) << 11` in bits
11-15.  On two's-complement values `& 0x07FF` is `emod 2048` and
`& 0x1F` is `emod 32`, and since the two fields are disjoint the
bitwise or is addition. -/
def Double_ToLinear11 (value : ℚ) (exp : Int) : Nat :=
  (clamp11 (toInt16 (ctrunc (value / (2 : ℚ) ^ exp))) % 2048).toNat
    + 2048 * (exp % 32).toNat

/-- Sign extension of the 11-bit mantissa field (pmbus_host.c, lines
756-759): `if (mantissa > 1023) mantissa -= 2048;`. -/
def signExtend11 (m : Int) : Int := if 1023 < m then m - 2048 else m

/-- Sign extension of the 5-bit exponent field (pmbus_host.c, lines
762-765): `if (exponent > 15) exponent -= 32;`. -/
def signExtend5 (e : Int) : Int := if 15 < e then e - 32 else e

/-- `Linear11_ToDouble` (pmbus_host.c, lines 750-768; identical static
copy in pmbus_ll.c, lines 87-105): extract the low 11 bits as a signed
mantissa, the high 5 bits as a signed exponent, and return
`mantissa * 2^exponent`. -/
def Linear11_ToDouble (linear11 : Nat) : ℚ :=
  (signExtend11 ((linear11 % 2048 : Nat) : Int) : ℚ)
    * (2 : ℚ) ^ signExtend5 ((linear11 / 2048 % 32 : Nat) : Int)

/-- `HAL_StatusTypeDef`, restricted to the outcomes produced by the
PMBus host paths modelled here (`HAL_OK` / `HAL_ERROR`). -/
inductive HALStatus where
  | ok
  | error
deriving DecidableEq, Repr

/-- `PMBus_DeviceTypeDef` (pmbus_host.h): one remote device record. -/
structure PMBus_DeviceTypeDef where
  address : Nat
  page : Nat
  online : Nat
deriving DecidableEq, Repr

/-- `PMBus_HostTypeDef` (pmbus_host.h), restricted to the registry
fields the address operations touch.  The fixed C array
`devices[MAX_PMBUS_DEVICES]` is modelled as a total map from index to
record. -/
structure PMBus_HostTypeDef where
  devices : Nat → PMBus_DeviceTypeDef
  device_count : Nat
  current_device : Nat

/-- Device registry exactly as `PMBus_Host_Init` leaves it
(pmbus_host.c, lines 916-920): one device at the default CoolX600
address `0x5A`, page 0, offline, selected as current. -/
def hostAfterInit : PMBus_HostTypeDef :=
  { devices := fun _ => { address := 0x5A, page := 0, online := 0 },
    device_count := 1,
    current_device := 0 }

/-- `PMBus_SetAddress` (pmbus_host.c, lines 952-959): rejects an
address outside the valid 7-bit range `[0x08, 0x77]` without touching
anything; otherwise stores it into the current device's record. -/
def PMBus_SetAddress (address : Nat) (h : PMBus_HostTypeDef) :
    HALStatus × PMBus_HostTypeDef :=
  if 0x77 < address ∨ address < 0x08 then
    (.error, h)
  else
    (.ok,
      { h with
          devices :=
            Function.update h.devices h.current_device
              ({ h.devices h.current_device with address := address }) })

/-- `PMBus_GetAddress` (pmbus_host.c, lines 964-967): address of the
current device. -/
def PMBus_GetAddress (h : PMBus_HostTypeDef) : Nat :=
  (h.devices h.current_device).address

/-- Response of the remote device to a block-read transaction: the
length byte it reports first, and the subsequent data bytes. -/
structure BlockResponse where
  reported_len : Nat
  data : Nat → Nat

/-- One byte store into the caller's buffer: (index, value). -/
abbrev BusWrite := Nat × Nat

/-- `PMBus_ReadBlockCmd` (pmbus_host.c, lines 1107-1139).  The bus
outcome is external input: `none` models any failed transfer (including
the uninitialized-host and NULL-pointer early returns), after which the
code performs no buffer write and `*len` is left at its input value.
On success the device-reported length byte is capped to the caller's
`*len` (`if (block_len > *len) block_len = *len;`), `memcpy` stores
exactly that many data bytes at indices `0..block_len-1`, and `*len` is
updated to the capped length. -/
def PMBus_ReadBlockCmd (resp : Option BlockResponse) (len : Nat) :
    HALStatus × Nat × List BusWrite :=
  match resp with
  | none => (.error, len, [])
  | some r =>
      (.ok, min r.reported_len len,
        (List.range (min r.reported_len len)).map fun i => (i, r.data i))

/-- `PMBus_ReadMfrId` (pmbus_host.c, lines 1421-1429; `ReadMfrModel` /
`ReadMfrSerial` are verbatim copies with a different command code,
which the model does not need to distinguish).  `uint8_t len =
max_len - 1` is computed in 8-bit arithmetic (hence the `% 256`), the
block read is bounded by it, and only on success is the terminating NUL
stored at `buffer[len]`, the capped block length. -/
def PMBus_ReadMfrId (resp : Option BlockResponse) (max_len : Nat) :
    HALStatus × List BusWrite :=
  match PMBus_ReadBlockCmd resp ((max_len + 255) % 256) with
  | (.ok, out_len, writes) => (.ok, writes ++ [(out_len, 0)])
  | (.error, _, writes) => (.error, writes)

/-- Each `CONFigure:PULses:ADD` with a parseable period grows the
sequence by exactly one entry: `TPT_AddPulse` has no capacity check. -/
theorem execCommands_addPulse_length (n : Nat) (q : ℚ) (s : TptState) :
    ((execCommands (List.replicate n (Command.addPulse (some q))) s).pulse_periods).length
      = s.pulse_periods.length + n := by
  induction n generalizing s with
  | zero => simp [execCommands]
  | succ k ih =>
      rw [List.replicate_succ]
      show ((execCommands (List.replicate k _) (execCommand _ s)).pulse_periods).length = _
      rw [ih]
      simp [execCommand, TPT_AddPulse]
      omega

/-- C1: the capacity invariant fails on the code.  257 consecutive
`CONFigure:PULses:ADD 1e-5` commands executed from the initial state
drive `current_number_pulses` to 257, strictly beyond the capacity
`TPT_MAXIMUM_NUMBER_PULSES = 256` (the 257th add also writes
`pulse_periods[256]`, one past the end of the C array). -/
theorem addPulse_overflows_capacity :
    ((execCommands (List.replicate 257 (Command.addPulse (some (1 / 100000))))
        initialState).pulse_periods).length = 257 ∧
    TPT_MAXIMUM_NUMBER_PULSES < 257 := by
  constructor
  · rw [execCommands_addPulse_length]; rfl
  · decide

/-- C3 counterexample: `AddPulse` performs no positivity or finiteness
check on the parsed period.  For the negative period `-1e-5` the
handler returns `SCPI_RES_OK` and appends an entry. -/
theorem addPulse_accepts_negative_period :
    (TPT_AddPulse (some (-(1 : ℚ) / 100000)) initialState).1 = ScpiResult.ok ∧
    ((TPT_AddPulse (some (-(1 : ℚ) / 100000)) initialState).2.pulse_periods).length = 1 := by
  exact ⟨rfl, rfl⟩

/-- C3 (amended): `AddPulse` returns an error (appending nothing and
changing no state) exactly on a parameter-parse failure; any
successfully parsed positive period is quantized with
`round(period / minimum_period)` and appended, leaving the run counter
untouched. -/
theorem addPulse_parse_and_append (s : TptState) (q : ℚ) (_hq : 0 < q) :
    TPT_AddPulse none s = (ScpiResult.err, s) ∧
    (TPT_AddPulse (some q) s).1 = ScpiResult.ok ∧
    (TPT_AddPulse (some q) s).2.pulse_periods
      = s.pulse_periods ++ [(cround (q / minimum_period)).toNat] ∧
    (TPT_AddPulse (some q) s).2.run_trains = s.run_trains ∧
    (TPT_AddPulse (some q) s).2.running = s.running := by
  exact ⟨rfl, rfl, rfl, rfl, rfl⟩

/-- C3 witness: the amended claim evaluated at `period = 1e-5` on the
initial state; the appended quantized count is `round(1e-5 / 5e-7) = 20`. -/
theorem addPulse_parse_and_append_witness :
    (TPT_AddPulse (some (1 / 100000)) initialState).2.pulse_periods
      = initialState.pulse_periods ++ [(cround ((1 / 100000) / minimum_period)).toNat] :=
  (addPulse_parse_and_append initialState (1 / 100000) (by norm_num)).2.2.1

/-- C5 counterexample: the run counter is kept in a 32-bit `size_t`, and
`number_repetitions += run_trains` wraps.  From the initial state
(counter `c = 0`), `RunPulses(4294967295)` followed by `RunPulses(1)`
leaves the count query at `4294967295`, not `c + a + b = 4294967296`:
the second call computes a wrapped target of `0` and executes no
repetition. -/
theorem runPulses_count_wraps :
    TPT_GetCountPulses
        ((TPT_RunPulses (some 1)
          ((TPT_RunPulses (some 4294967295) initialState).2.1)).2.1)
      = 4294967295 ∧
    (4294967295 : Nat) ≠ 0 + 4294967295 + 1 := by
  exact ⟨rfl, by decide⟩

/-- C5 (amended): as long as `c + a + b` stays below `2^32` (no `size_t`
wraparound), `RunPulses(a)` then `RunPulses(b)` from a state with run
counter `c` leaves the count query at `c + a + b` — the counter is
cumulative and `RunPulses` never resets it — and `*RST` resets the
counter to 0. -/
theorem runPulses_count_cumulative (s : TptState) (a b : Nat)
    (hov : s.run_trains + a + b < SIZE_T_MOD) :
    TPT_GetCountPulses
        ((TPT_RunPulses (some b) ((TPT_RunPulses (some a) s).2.1)).2.1)
      = s.run_trains + a + b ∧
    TPT_GetCountPulses (SCPI_Reset s) = 0 := by
  constructor
  · simp only [TPT_RunPulses, TPT_GetCountPulses, SIZE_T_MOD] at *
    have h1 : (a + s.run_trains) % 2 ^ 32 = a + s.run_trains :=
      Nat.mod_eq_of_lt (by omega)
    simp only [h1]
    have h2 : (b + (if s.run_trains < a + s.run_trains then a + s.run_trains
        else s.run_trains)) % 2 ^ 32
        = b + (if s.run_trains < a + s.run_trains then a + s.run_trains
            else s.run_trains) := by
      split <;> exact Nat.mod_eq_of_lt (by omega)
    simp only [h2]
    split <;> split <;> omega
  · rfl

/-- C5 witness: the amended claim evaluated at `c = 2`, `a = 3`,
`b = 4`: the count query after the two runs yields `9`. -/
theorem runPulses_count_cumulative_witness :
    TPT_GetCountPulses
        ((TPT_RunPulses (some 4)
          ((TPT_RunPulses (some 3) ⟨[], 2, false⟩).2.1)).2.1) = 2 + 3 + 4 :=
  (runPulses_count_cumulative ⟨[], 2, false⟩ 3 4 (by decide)).1

/-- C6: `*OPC?` reports `0` exactly when the `running` flag is set and
`1` exactly when it is clear, and the reported value is determined
solely by the `running` flag (any two states agreeing on the flag get
the same answer). -/
theorem coreOpcQ_reports_running (s t : TptState) :
    (TPT_CoreOpcQ s = 0 ↔ s.running = true) ∧
    (TPT_CoreOpcQ s = 1 ↔ s.running = false) ∧
    (s.running = t.running → TPT_CoreOpcQ s = TPT_CoreOpcQ t) := by
  unfold TPT_CoreOpcQ
  cases hs : s.running <;> cases ht : t.running <;> simp_all

/-- C6 witness: `*OPC?` answers `0` on a concrete state whose `running`
flag is set. -/
theorem coreOpcQ_reports_running_witness :
    TPT_CoreOpcQ ⟨[], 0, true⟩ = 0 :=
  (coreOpcQ_reports_running ⟨[], 0, true⟩ ⟨[], 0, true⟩).1.mpr rfl

/-- C8: on a parameter-parse failure both `TPT_AddPulse` and
`TPT_RunPulses` return `SCPI_RES_ERR` with the component state entirely
unchanged (pulse sequence, its length, run counter and running flag)
and, for the run handler, no GPIO activity. -/
theorem parse_failure_leaves_state (s : TptState) :
    TPT_AddPulse none s = (ScpiResult.err, s) ∧
    TPT_RunPulses none s = (ScpiResult.err, s, []) := by
  exact ⟨rfl, rfl⟩

/-- Any segment is in the dead-time relation with a following both-off
segment. -/
theorem DtR_of_off (a b : TraceSeg) (h : b.out = OutputState.off) : DtR a b :=
  fun hb => absurd h hb

/-- The pulse loop trace starts with a both-off (dead-time) segment. -/
theorem pulseTrace_head_off (l : List Nat) (b : Bool) :
    ∀ x ∈ (pulseTrace l b).head?, x.out = OutputState.off := by
  cases l <;> simp [pulseTrace]

/-- Consecutive segments of the pulse loop trace respect the dead-time
relation. -/
theorem pulseTrace_chain (l : List Nat) (b : Bool) :
    (pulseTrace l b).Chain' DtR := by
  induction l generalizing b with
  | nil => simp [pulseTrace]
  | cons c rest ih =>
      rw [pulseTrace]
      refine List.chain'_cons.mpr ⟨fun _ => ⟨rfl, le_refl _⟩, ?_⟩
      refine List.chain'_cons'.mpr ⟨?_, ih (!b)⟩
      intro z hz
      exact DtR_of_off _ _ (pulseTrace_head_off rest (!b) z hz)

/-- Heads of appended traces: if both parts start (when non-empty) with
a both-off segment, so does the concatenation. -/
theorem head_off_append (l1 l2 : List TraceSeg)
    (h1 : ∀ x ∈ l1.head?, x.out = OutputState.off)
    (h2 : ∀ x ∈ l2.head?, x.out = OutputState.off) :
    ∀ x ∈ (l1 ++ l2).head?, x.out = OutputState.off := by
  cases l1 <;> simp_all

/-- Appending a trailing both-off segment preserves the dead-time
chain. -/
theorem chain_append_off (l : List TraceSeg) (h : l.Chain' DtR) (d : Nat) :
    (l ++ [({ out := OutputState.off, duration_ns := d } : TraceSeg)]).Chain' DtR := by
  refine h.append (List.chain'_singleton _) ?_
  intro x _ y hy
  simp only [List.head?_cons, Option.mem_def, Option.some.injEq] at hy
  exact DtR_of_off _ _ (by rw [← hy])

/-- One repetition's trace respects the dead-time chain. -/
theorem repTrace_chain (l : List Nat) : (repTrace l).Chain' DtR := by
  unfold repTrace
  refine List.chain'_cons'.mpr ⟨?_, chain_append_off _ (pulseTrace_chain l false) 0⟩
  intro y hy
  refine DtR_of_off _ _ ?_
  exact head_off_append _ _ (pulseTrace_head_off l false) (by simp) y hy

/-- The trace of any number of repetitions starts (when non-empty) with
a both-off segment. -/
theorem runTrace_head_off (l : List Nat) (n : Nat) :
    ∀ x ∈ (runTrace l n).head?, x.out = OutputState.off := by
  induction n with
  | zero => simp [runTrace]
  | succ m ih =>
      rw [runTrace]
      exact head_off_append _ _ (by simp [repTrace]) ih

/-- The trace of any number of repetitions respects the dead-time
chain. -/
theorem runTrace_chain (l : List Nat) (n : Nat) : (runTrace l n).Chain' DtR := by
  induction n with
  | zero => simp [runTrace]
  | succ m ih =>
      rw [runTrace]
      refine (repTrace_chain l).append ih ?_
      intro x _ y hy
      exact DtR_of_off _ _ (runTrace_head_off l m y hy)

/-- C2: during any invocation of `TPT_RunPulses` (and for any engine
state), the GPIO output trace satisfies the dead-time invariant:
between any two consecutive output-polarity transitions both outputs
are driven off and held off for at least `TPT_DEADTIME_NS` (200 ns)
before the new polarity is asserted, and the run starts from the
both-off safe state. -/
theorem runPulses_deadtime (s : TptState) (p : Option Nat) :
    DeadtimeOK (TPT_RunPulses p s).2.2 := by
  cases p with
  | none => exact ⟨by simp [TPT_RunPulses], by simp [TPT_RunPulses]⟩
  | some reps =>
      unfold DeadtimeOK TPT_RunPulses
      constructor
      · intro x hx
        simp only [List.head?_cons, Option.mem_def, Option.some.injEq] at hx
        rw [← hx]
      · refine List.chain'_cons'.mpr ⟨?_, runTrace_chain _ _⟩
        intro y hy
        exact DtR_of_off _ _ (runTrace_head_off _ _ y hy)

/-- C4: for any period within the fixed bounds, adding it and reading
the sequence back yields, at the appended (last) position, a value
within one quantization step (`minimum_period` = 5e-7 s) of the period:
the stored count is `round(p / minimum_period)` and reading multiplies
it back. -/
theorem addPulse_read_within_one_step (s : TptState) (p : ℚ)
    (h1 : minimum_period ≤ p) (_h2 : p ≤ maximum_period) :
    |(TPT_ReadPulses (TPT_AddPulse (some p) s).2).getLastD 0 - p| ≤ minimum_period := by
  have hu : (0 : ℚ) < minimum_period := by norm_num [minimum_period]
  have hval : (TPT_ReadPulses (TPT_AddPulse (some p) s).2).getLastD 0
      = ((cround (p / minimum_period)).toNat : ℚ) * minimum_period := by
    simp only [TPT_AddPulse, TPT_ReadPulses, List.map_append, List.map_cons,
      List.map_nil, List.getLastD_concat]
  rw [hval]
  set x := p / minimum_period with hx
  have hx1 : (1 : ℚ) ≤ x := by
    rw [hx, le_div_iff₀ hu]
    linarith
  have hcr : cround x = ⌊x + 1 / 2⌋ := by
    unfold cround
    rw [if_pos (by linarith)]
  have hfl : (1 : Int) ≤ ⌊x + 1 / 2⌋ := by
    rw [Int.le_floor]
    push_cast
    linarith
  have htn : (((⌊x + 1 / 2⌋ : Int).toNat : ℚ)) = ((⌊x + 1 / 2⌋ : Int) : ℚ) := by
    exact_mod_cast Int.toNat_of_nonneg (by omega)
  rw [hcr, htn]
  have hxp : p = x * minimum_period := by
    rw [hx, div_mul_cancel₀ _ (ne_of_gt hu)]
  have hkey : ((⌊x + 1 / 2⌋ : Int) : ℚ) * minimum_period - p
      = (((⌊x + 1 / 2⌋ : Int) : ℚ) - x) * minimum_period := by
    rw [hxp]
    ring
  rw [hkey, abs_mul, abs_of_pos hu]
  have hb1 : ((⌊x + 1 / 2⌋ : Int) : ℚ) ≤ x + 1 / 2 := Int.floor_le _
  have hb2 : x + 1 / 2 - 1 < ((⌊x + 1 / 2⌋ : Int) : ℚ) := Int.sub_one_lt_floor _
  have habs : |((⌊x + 1 / 2⌋ : Int) : ℚ) - x| ≤ 1 / 2 := by
    rw [abs_le]
    constructor <;> linarith
  have : |((⌊x + 1 / 2⌋ : Int) : ℚ) - x| * minimum_period
      ≤ (1 / 2) * minimum_period :=
    mul_le_mul_of_nonneg_right habs (le_of_lt hu)
  linarith

/-- C4 witness: adding the valid period `1e-5` to the empty sequence
and reading back yields a value within `5e-7` of `1e-5`. -/
theorem addPulse_read_within_one_step_witness :
    |(TPT_ReadPulses (TPT_AddPulse (some (1 / 100000)) initialState).2).getLastD 0
        - 1 / 100000| ≤ minimum_period :=
  addPulse_read_within_one_step initialState (1 / 100000)
    (by norm_num [minimum_period]) (by norm_num [maximum_period])

/-- C7: the Linear11 codec round-trips every value exactly
representable at the chosen exponent: for an exponent in the signed
5-bit range and a mantissa in the signed 11-bit range,
`Linear11_ToDouble (Double_ToLinear11 (m * 2^e) e) = m * 2^e`. -/
theorem linear11_roundtrip (m e : Int)
    (hm1 : -1024 ≤ m) (hm2 : m ≤ 1023) (he1 : -16 ≤ e) (he2 : e ≤ 15) :
    Linear11_ToDouble (Double_ToLinear11 ((m : ℚ) * (2 : ℚ) ^ e) e)
      = (m : ℚ) * (2 : ℚ) ^ e := by
  have hmrec : signExtend11 (m % 2048) = m := by
    unfold signExtend11
    have hm0 : m % 2048 = m ∨ m % 2048 = m + 2048 := by omega
    split <;> omega
  have herec : signExtend5 (e % 32) = e := by
    unfold signExtend5
    have he0 : e % 32 = e ∨ e % 32 = e + 32 := by omega
    split <;> omega
  have hdiv : ((m : ℚ) * (2 : ℚ) ^ e) / (2 : ℚ) ^ e = (m : ℚ) := by
    rw [mul_div_assoc, div_self (zpow_ne_zero _ two_ne_zero), mul_one]
  have htr : ctrunc ((m : ℚ)) = m := by
    unfold ctrunc
    split <;> simp
  have h16 : toInt16 m = m := by
    unfold toInt16
    omega
  have hcl : clamp11 m = m := by
    unfold clamp11
    split
    · omega
    · split <;> omega
  have henc : Double_ToLinear11 ((m : ℚ) * (2 : ℚ) ^ e) e
      = (m % 2048).toNat + 2048 * (e % 32).toNat := by
    unfold Double_ToLinear11
    rw [hdiv, htr, h16, hcl]
  rw [henc]
  have hm' : (0 : Int) ≤ m % 2048 := Int.emod_nonneg m (by norm_num)
  have hm'' : m % 2048 < 2048 := Int.emod_lt_of_pos m (by norm_num)
  have he' : (0 : Int) ≤ e % 32 := Int.emod_nonneg e (by norm_num)
  have he'' : e % 32 < 32 := Int.emod_lt_of_pos e (by norm_num)
  have hna : ((m % 2048).toNat : Int) = m % 2048 := Int.toNat_of_nonneg hm'
  have hnb : ((e % 32).toNat : Int) = e % 32 := Int.toNat_of_nonneg he'
  have hidx1 : (((m % 2048).toNat + 2048 * (e % 32).toNat) % 2048 : Nat)
      = (m % 2048).toNat := by
    omega
  have hidx2 : (((m % 2048).toNat + 2048 * (e % 32).toNat) / 2048 % 32 : Nat)
      = (e % 32).toNat := by
    omega
  unfold Linear11_ToDouble
  rw [hidx1, hidx2, hna, hnb, hmrec, herec]

/-- C7 witness: the round trip evaluated at mantissa `5` and exponent
`-2`: encoding then decoding `5 * 2^(-2) = 1.25` at exponent `-2`
returns `1.25`. -/
theorem linear11_roundtrip_witness :
    Linear11_ToDouble (Double_ToLinear11 ((5 : ℚ) * (2 : ℚ) ^ (-2 : Int)) (-2))
      = (5 : ℚ) * (2 : ℚ) ^ (-2 : Int) :=
  linear11_roundtrip 5 (-2) (by decide) (by decide) (by decide) (by decide)

/-- C9: `PMBus_SetAddress` returns an error exactly when the address
lies outside the valid 7-bit range `[0x08, 0x77]`, in which case the
whole registry (in particular the current device's stored address) is
unchanged; for an in-range address it succeeds and the current device's
address becomes that value. -/
theorem setAddress_range_check (h : PMBus_HostTypeDef) (a : Nat) :
    ((PMBus_SetAddress a h).1 = HALStatus.error ↔ (a < 0x08 ∨ 0x77 < a)) ∧
    ((a < 0x08 ∨ 0x77 < a) → (PMBus_SetAddress a h).2 = h) ∧
    (0x08 ≤ a → a ≤ 0x77 →
      (PMBus_SetAddress a h).1 = HALStatus.ok ∧
      PMBus_GetAddress (PMBus_SetAddress a h).2 = a) := by
  unfold PMBus_SetAddress PMBus_GetAddress
  by_cases hc : 0x77 < a ∨ a < 0x08
  · rw [if_pos hc]
    refine ⟨⟨fun _ => ?_, fun _ => rfl⟩, fun _ => rfl, fun ha1 ha2 => absurd hc ?_⟩
    · omega
    · omega
  · rw [if_neg hc]
    refine ⟨⟨fun hcon => absurd hcon (by simp), fun hout => absurd ?_ hc⟩,
      fun hout => absurd ?_ hc, fun _ _ => ⟨rfl, ?_⟩⟩
    · omega
    · omega
    · simp [Function.update_same]

/-- C9 witness: setting the in-range address `0x20` on the
freshly-initialized registry succeeds and the current device's address
reads back as `0x20`. -/
theorem setAddress_range_check_witness :
    (PMBus_SetAddress 0x20 hostAfterInit).1 = HALStatus.ok ∧
    PMBus_GetAddress (PMBus_SetAddress 0x20 hostAfterInit).2 = 0x20 :=
  (setAddress_range_check hostAfterInit 0x20).2.2 (by decide) (by decide)

/-- C10: whenever a manufacturer-identification block read succeeds
with a buffer capacity `max_len ≥ 1` (a `uint8_t`, so at most 255), the
device-reported block length is capped to `max_len - 1` data bytes, the
terminating NUL is written exactly at that capped length, and every
buffer write — data bytes and NUL alike — lands strictly below index
`max_len`. -/
theorem readMfrId_bounded (max_len : Nat) (r : BlockResponse)
    (hlo : 1 ≤ max_len) (hhi : max_len ≤ 255) :
    (PMBus_ReadMfrId (some r) max_len).1 = HALStatus.ok ∧
    (∀ w ∈ (PMBus_ReadMfrId (some r) max_len).2, w.1 < max_len) ∧
    ((PMBus_ReadMfrId (some r) max_len).2).getLast?
      = some (min r.reported_len (max_len - 1), 0) ∧
    min r.reported_len (max_len - 1) ≤ max_len - 1 := by
  have hlen : (max_len + 255) % 256 = max_len - 1 := by omega
  unfold PMBus_ReadMfrId PMBus_ReadBlockCmd
  rw [hlen]
  refine ⟨rfl, ?_, ?_, Nat.min_le_right _ _⟩
  · intro w hw
    simp only [List.mem_append, List.mem_map, List.mem_range,
      List.mem_singleton] at hw
    rcases hw with ⟨i, hi, hwi⟩ | hw
    · rw [← hwi]
      have : min r.reported_len (max_len - 1) ≤ max_len - 1 := Nat.min_le_right _ _
      omega
    · rw [hw]
      have : min r.reported_len (max_len - 1) ≤ max_len - 1 := Nat.min_le_right _ _
      omega
  · exact List.getLast?_concat _

/-- C10 witness: a successful block read reporting 5 data bytes into an
8-byte buffer keeps every write below index 8 and ends with the NUL at
index `min 5 7 = 5`. -/
theorem readMfrId_bounded_witness :
    (PMBus_ReadMfrId (some ⟨5, fun _ => 65⟩) 8).1 = HALStatus.ok ∧
    ((PMBus_ReadMfrId (some ⟨5, fun _ => 65⟩) 8).2).getLast?
      = some (min 5 (8 - 1), 0) :=
  ⟨(readMfrId_bounded 8 ⟨5, fun _ => 65⟩ (by decide) (by decide)).1,
   (readMfrId_bounded 8 ⟨5, fun _ => 65⟩ (by decide) (by decide)).2.2.1⟩

end OpenTPT
